import Mathlib

/-!
# GitScout candidate discovery & ranking pipeline — a shallow embedding

This file embeds the core of the GitScout recruiting-assistant backend
(`backend/app/services/matching/*`, `backend/app/services/github/client.py`,
`backend/app/services/llm/mock.py`) into Lean and proves the specified
properties of the query builder, the repo-discovery/contributor-aggregation
pipeline, the scorer and the ranker.

Modelling conventions:
* Python dict lookups with `.get(key, default)` become `Option` fields read
  with `Option.getD`.
* Python `float` arithmetic is idealised as `ℚ`; `math.log(c + 1)` is an
  abstract parameter `log1p : ℕ → ℚ`, since none of the proved properties
  depend on the values of the logarithm.
* The ambient clock (`datetime.now()`) is an explicit parameter `now : ℤ`
  (measured in days), and ISO-8601 timestamp parsing
  (`datetime.fromisoformat`) is an explicit parameter
  `parseDate : String → Option ℤ` (`none` models a parse failure).
* Exceptions become `Except`/`Option` results: an external call that may
  raise is a function returning `Except ε α` (or `Option` when only the
  caught/uncaught distinction matters).
-/

namespace GitScout

/-! ## String helpers

Python's `needle in hay` substring test and `str.lower`, written over
explicit character lists so that concrete instances reduce in the kernel. -/

/-- `leadsWith needle hay`: `needle` is an initial segment of `hay`. -/
def leadsWith : List Char → List Char → Bool
  | [], _ => true
  | _ :: _, [] => false
  | a :: as, b :: bs => a == b && leadsWith as bs

/-- `occursIn needle hay`: `needle` occurs contiguously inside `hay`
(Python's `needle in hay`). -/
def occursIn (needle : List Char) : List Char → Bool
  | [] => needle.isEmpty
  | c :: rest => leadsWith needle (c :: rest) || occursIn needle rest

/-- Python `needle in hay` on strings. -/
def strIn (needle hay : String) : Bool := occursIn needle.data hay.data

/-- Python `str.lower()` (characterwise; the source only lowercases ASCII
job-description text). -/
def lowerStr (s : String) : String := String.mk (s.data.map Char.toLower)

/-! ## `GitScoutJDSpec` (backend/app/models/jd_spec.py)

The structured requirement extracted from a job description. Numeric fields
are Python `int`s, so they are `ℤ` here; the defaults are the pydantic
defaults. -/

structure GitScoutJDSpec where
  role_title : Option String := none
  languages : List String := []
  core_domains : List String := []
  core_keywords : List String := []
  nice_keywords : List String := []
  recency_days : ℤ := 365
  min_repo_stars : ℤ := 20
  exclude_forks : Bool := true
  exclude_archived : Bool := true
  min_followers : ℤ := 0
  location_hint : Option String := none
  max_repo_queries : ℤ := 8
  max_repos_per_query : ℤ := 20
deriving Repr, DecidableEq

/-! ## Query generation (query_generator.py, `generate_repo_queries`) -/

/-- Python list slicing `l[:n]` for an `int` bound `n`: a negative bound
drops `|n|` elements from the end. -/
def pySlice {α : Type} (n : ℤ) (l : List α) : List α :=
  if 0 ≤ n then l.take n.toNat else l.take (l.length - (-n).toNat)

/-- `list(dict.fromkeys(queries))` — order-preserving deduplication keeping
the first occurrence of each string, via a running `seen` set. -/
def dedupFirstAux (seen : List String) : List String → List String
  | [] => []
  | q :: rest =>
      if q ∈ seen then dedupFirstAux seen rest
      else q :: dedupFirstAux (q :: seen) rest

/-- `list(dict.fromkeys(queries))` (query_generator.py line 212). -/
def dedupFirst (l : List String) : List String := dedupFirstAux [] l

/-- The shared base filters (query_generator.py lines 144-153).
`recency_date` stands for `(now − recency_days).strftime("%Y-%m-%d")`; the
clock read is ambient state, so the formatted date is passed explicitly. -/
def base_filter_str (spec : GitScoutJDSpec) (recency_date : String) : String :=
  String.intercalate " "
    ((if spec.min_repo_stars > 0 then ["stars:>" ++ toString spec.min_repo_stars] else [])
      ++ ["pushed:>" ++ recency_date]
      ++ (if spec.exclude_forks then ["fork:false"] else [])
      ++ (if spec.exclude_archived then ["archived:false"] else []))

/-- `if len(query) <= 256 and query not in queries: queries.append(query)` —
the guarded append used by strategies 1, 2, 5 and 6. -/
def addIfOk (qs : List String) (q : String) : List String :=
  if q.length ≤ 256 ∧ q ∉ qs then qs ++ [q] else qs

/-- `if len(query) <= 256: queries.append(query)` — the append used by
strategies 4 and 7, which check only the length (no duplicate test). -/
def addIfShort (qs : List String) (q : String) : List String :=
  if q.length ≤ 256 then qs ++ [q] else qs

/-- The keyword groups traversed by `range(0, min(len(kws), 6), 3)` with the
slice `kws[i:i+3]` and the `if keywords:` guard: the first six keywords,
chunked into groups of at most three, empty groups dropped. -/
def keywordChunks3 (kws : List String) : List (List String) :=
  [(kws.take 6).take 3, (kws.take 6).drop 3].filter (· ≠ [])

/-- The keyword groups traversed by `range(0, min(len(kws), 6), 2)` with the
slice `kws[i:i+2]` and the `if keywords:` guard (strategy 6). -/
def keywordChunks2 (kws : List String) : List (List String) :=
  [(kws.take 6).take 2, ((kws.take 6).drop 2).take 2, (kws.take 6).drop 4].filter (· ≠ [])

/-- Strategy 1 (query_generator.py lines 156-160): language × domain-topic
cross product. -/
def queries_strategy1 (spec : GitScoutJDSpec) (bf : String) : List String :=
  (spec.languages.take 3).foldl (fun qs lang =>
    (spec.core_domains.take 2).foldl (fun qs2 domain =>
      addIfOk qs2 ("language:" ++ lang ++ " topic:" ++ domain ++ " " ++ bf)) qs) []

/-- Strategy 2 (lines 163-170): language × OR-group of up to three core
keywords. -/
def queries_strategy2 (spec : GitScoutJDSpec) (bf : String) (qs0 : List String) : List String :=
  (spec.languages.take 3).foldl (fun qs lang =>
    (keywordChunks3 spec.core_keywords).foldl (fun qs2 kws =>
      addIfOk qs2
        ("language:" ++ lang ++ " (" ++ String.intercalate " OR " kws ++ ") " ++ bf)) qs) qs0

/-- Strategy 4 (lines 180-184): language-only fallback when nothing was
produced; the source appends with only the length check here. -/
def queries_strategy4 (spec : GitScoutJDSpec) (bf : String) (qs0 : List String) : List String :=
  if qs0 = [] ∧ spec.languages ≠ [] then
    (spec.languages.take 2).foldl (fun qs lang =>
      addIfShort qs ("language:" ++ lang ++ " " ++ bf)) qs0
  else qs0

/-- Strategy 5 (lines 187-191): domain-only fallback. -/
def queries_strategy5 (spec : GitScoutJDSpec) (bf : String) (qs0 : List String) : List String :=
  if qs0 = [] ∧ spec.core_domains ≠ [] then
    (spec.core_domains.take 3).foldl (fun qs domain =>
      addIfOk qs ("topic:" ++ domain ++ " " ++ bf)) qs0
  else qs0

/-- Strategy 6 (lines 194-201): keyword-pair fallback. -/
def queries_strategy6 (spec : GitScoutJDSpec) (bf : String) (qs0 : List String) : List String :=
  if qs0 = [] ∧ spec.core_keywords ≠ [] then
    (keywordChunks2 spec.core_keywords).foldl (fun qs kws =>
      addIfOk qs (String.intercalate " " kws ++ " " ++ bf)) qs0
  else qs0

/-- Strategy 7 (lines 204-209): the generic `stars:>100` fallback. -/
def queries_strategy7 (bf : String) (qs0 : List String) : List String :=
  if qs0 = [] then addIfShort [] ("stars:>100 " ++ bf) else qs0

/-- The `queries` list after all strategies ran in priority order
(query_generator.py lines 138-209). -/
def built_queries (spec : GitScoutJDSpec) (recency_date : String) : List String :=
  let bf := base_filter_str spec recency_date
  queries_strategy7 bf
    (queries_strategy6 spec bf
      (queries_strategy5 spec bf
        (queries_strategy4 spec bf
          (queries_strategy2 spec bf (queries_strategy1 spec bf)))))

/-- `generate_repo_queries` (query_generator.py lines 123-213): the
strategies in priority order, then `list(dict.fromkeys(queries))` and
truncation to `max_repo_queries`. -/
def generate_repo_queries (spec : GitScoutJDSpec) (recency_date : String) : List String :=
  pySlice spec.max_repo_queries (dedupFirst (built_queries spec recency_date))

/-! ## Scorer (matching/scorer.py, `calculate_score`)

`user_data` is the dict produced by `GitHubClient.parse_user_data` plus the
optional `contrib_score_seed` key; each key the scorer reads with `.get` is
an `Option` field. Counts coming from the GitHub API are non-negative, so
they are `ℕ`; the seed is a `float` computed by the aggregation pipeline,
hence `ℚ`. -/

structure RepoData where
  stargazerCount : Option ℕ := none
  isFork : Option Bool := none
  languages : Option (List String) := none
  pushedAt : Option String := none
deriving Repr, DecidableEq

structure UserData where
  login : Option String := none
  repositories : Option (List RepoData) := none
  totalCommits : Option ℕ := none
  followers : Option ℕ := none
  contrib_score_seed : Option ℚ := none
deriving Repr, DecidableEq

/-- `user_data.get("repositories", [])`. -/
def reposOf (u : UserData) : List RepoData := u.repositories.getD []

/-- Python `round(x, 2)`. Mathlib's `round` rounds half away from the floor
(`⌊x + 1/2⌋`) whereas CPython rounds half to even; the two agree except at
exact half-ties of the underlying binary float, which none of the proved
properties depend on. -/
def round2 (q : ℚ) : ℚ := (round (q * 100) : ℚ) / 100

/-- Sub-score 1, repository count: `min(repo_count / 2.0, 12.0)`. -/
def repo_count_score (u : UserData) : ℚ :=
  min (((reposOf u).length : ℚ) / 2) 12

/-- Total stars over non-fork repositories (scorer.py lines 31-35). -/
def total_stars (u : UserData) : ℕ :=
  (((reposOf u).filter (fun r => ! r.isFork.getD false)).map
    (fun r => r.stargazerCount.getD 0)).sum

/-- Sub-score 2, stars: `min(total_stars / 50.0, 18.0)`. -/
def stars_score (u : UserData) : ℚ :=
  min ((total_stars u : ℚ) / 50) 18

/-- Sub-score 3, commit contributions: `min(total_commits / 100.0, 18.0)`. -/
def commits_score (u : UserData) : ℚ :=
  min ((u.totalCommits.getD 0 : ℚ) / 100) 18

/-- The set `all_languages` accumulated over the repos (scorer.py lines
43-45); only its cardinality is used, so an order-preserving dedup list
stands in for the Python set. -/
def all_languages (u : UserData) : List String :=
  ((reposOf u).flatMap (fun r => r.languages.getD [])).dedup

/-- Sub-score 4, language diversity: `min(lang_count * 2.5, 20.0)`. -/
def language_score (u : UserData) : ℚ :=
  min (((all_languages u).length : ℚ) * 2.5) 20

/-- One repository's recency test (scorer.py lines 57-65): the repo counts
as recent when `pushedAt` is present, parses, and is strictly later than
`now − 180` days; a missing or unparseable timestamp is silently skipped. -/
def isRecentRepo (parseDate : String → Option ℤ) (now : ℤ) (r : RepoData) : Bool :=
  match r.pushedAt with
  | some s =>
    match parseDate s with
    | some d => decide (now - 180 < d)
    | none => false
  | none => false

/-- `recent_repos` (scorer.py lines 55-63). -/
def recent_repos (parseDate : String → Option ℤ) (now : ℤ) (u : UserData) : ℕ :=
  (reposOf u).countP (isRecentRepo parseDate now)

/-- Sub-score 5, recent activity: `min(recent_repos * 2, 10.0)`. -/
def activity_score (parseDate : String → Option ℤ) (now : ℤ) (u : UserData) : ℚ :=
  min ((recent_repos parseDate now u : ℚ) * 2) 10

/-- Sub-score 6, followers: `min(followers / 100.0, 7.0)`. -/
def followers_score (u : UserData) : ℚ :=
  min ((u.followers.getD 0 : ℚ) / 100) 7

/-- Sub-score 7, contribution seed: `min(contrib_seed * 2, 15.0)`. -/
def seed_score (u : UserData) : ℚ :=
  min (u.contrib_score_seed.getD 0 * 2) 15

/-- `calculate_score` (scorer.py lines 5-79): the additive total of the
seven sub-scores, rounded to two decimals. `datetime.now()` is the explicit
`now` argument and `datetime.fromisoformat` the explicit `parseDate`. -/
def calculate_score (parseDate : String → Option ℤ) (now : ℤ) (u : UserData) : ℚ :=
  round2 (repo_count_score u + stars_score u + commits_score u + language_score u
    + activity_score parseDate now u + followers_score u + seed_score u)

/-! ## Ranker (matching/ranker.py, `rank_candidates`)

Only the ordering-relevant projection of each `Candidate` is modelled: the
login, the score and the top-4 repository preview. The `matchReason` string
is presentation-only and does not influence the ordering, so it is omitted
(its Python construction iterates a hash set, whose enumeration order is
interpreter state, not pipeline data). -/

structure Candidate where
  login : String
  score : ℚ
  topRepos : List RepoData
deriving Repr, DecidableEq

/-- The comparison underlying `candidates.sort(key=lambda c: c.score,
reverse=True)`: a stable descending sort by score. -/
def candLe (a b : Candidate) : Prop := b.score ≤ a.score

instance : DecidableRel candLe := fun a b => inferInstanceAs (Decidable (b.score ≤ a.score))

instance : IsTotal Candidate candLe := ⟨fun a b => le_total b.score a.score⟩

instance : IsTrans Candidate candLe := ⟨fun _ _ _ h1 h2 => le_trans h2 h1⟩

/-- `rank_candidates` (ranker.py lines 56-104): score every user, build the
candidate with the top-4 repo preview, and stable-sort descending by score.
(The unused `jd_text` parameter is dropped.) -/
def rank_candidates (parseDate : String → Option ℤ) (now : ℤ)
    (users : List UserData) : List Candidate :=
  List.insertionSort candLe
    (users.map (fun u =>
      { login := u.login.getD ""
        score := calculate_score parseDate now u
        topRepos := (reposOf u).take 4 }))

/-! ## Repo discovery (repo_pipeline.py, steps 1-2)

A repository as produced by `GitHubClient.parse_repo_data`. The fields the
pipeline reads are modelled; `pushedAt` is the raw ISO-8601 GraphQL
timestamp used as the secondary sort key. -/

structure Repo where
  name : String := ""
  nameWithOwner : String := ""
  owner_login : String := ""
  stargazerCount : ℕ := 0
  isFork : Bool := false
  isArchived : Bool := false
  pushedAt : String := ""
deriving Repr, DecidableEq

/-- The descending comparison used by
`all_repos.sort(key=lambda r: (r["stargazerCount"], r.get("pushedAt", "")), reverse=True)`:
`a` sorts no later than `b` when `a`'s key tuple is lexicographically at
least `b`'s (stars first, then the push timestamp string). -/
def repoLe (a b : Repo) : Prop :=
  b.stargazerCount < a.stargazerCount
    ∨ (b.stargazerCount = a.stargazerCount ∧ b.pushedAt ≤ a.pushedAt)

instance : DecidableRel repoLe := fun a b =>
  inferInstanceAs (Decidable (b.stargazerCount < a.stargazerCount
    ∨ (b.stargazerCount = a.stargazerCount ∧ b.pushedAt ≤ a.pushedAt)))

instance : IsTotal Repo repoLe := by
  constructor
  intro a b
  rcases lt_trichotomy a.stargazerCount b.stargazerCount with h | h | h
  · exact Or.inr (Or.inl h)
  · rcases le_total a.pushedAt b.pushedAt with hp | hp
    · exact Or.inr (Or.inr ⟨h, hp⟩)
    · exact Or.inl (Or.inr ⟨h.symm, hp⟩)
  · exact Or.inl (Or.inl h)

instance : IsTrans Repo repoLe := by
  constructor
  intro a b c hab hbc
  rcases hab with h1 | ⟨e1, p1⟩
  · rcases hbc with h2 | ⟨e2, p2⟩
    · exact Or.inl (h2.trans h1)
    · exact Or.inl (e2 ▸ h1)
  · rcases hbc with h2 | ⟨e2, p2⟩
    · exact Or.inl (e1 ▸ h2)
    · exact Or.inr ⟨e2.trans e1, p2.trans p1⟩

/-- One search query's contribution to the accumulated repo list
(repo_pipeline.py lines 47-63). `search q = none` models a query whose
request raised (caught and skipped); `some nodes` is the returned node
list, where a `none` node is a null GraphQL node (skipped, as
`parse_repo_data` returns `None` exactly for falsy nodes). A parsed repo is
appended iff its fully-qualified name is not yet in the global seen set and
it survives the fork/archived filters. -/
def collectStep (spec : GitScoutJDSpec) (acc : List Repo) (node : Option Repo) : List Repo :=
  match node with
  | none => acc
  | some parsed =>
    if parsed.nameWithOwner ∈ acc.map Repo.nameWithOwner then acc
    else if parsed.isFork && spec.exclude_forks then acc
    else if parsed.isArchived && spec.exclude_archived then acc
    else acc ++ [parsed]

def collectQuery (spec : GitScoutJDSpec) (acc : List Repo)
    (nodes : List (Option Repo)) : List Repo :=
  nodes.foldl (collectStep spec) acc

/-- Steps 1-2 of the pipeline (repo_pipeline.py lines 44-74): run every
query, dedup globally by `nameWithOwner`, sort by (stars desc, pushed-at
desc) and truncate to `max_repos`. -/
def discoverRepos (spec : GitScoutJDSpec)
    (search : String → Option (List (Option Repo)))
    (queries : List String) (max_repos : ℕ) : List Repo :=
  let all_repos := queries.foldl (fun acc q =>
    match search q with
    | none => acc            -- the query raised; logged and skipped
    | some nodes => collectQuery spec acc nodes) []
  (List.insertionSort repoLe all_repos).take max_repos

/-! ## GitHub REST contributors (github/client.py) -/

/-- A raw entry of the REST `/contributors` response body. -/
structure RawContributor where
  login : Option String := none
  node_id : Option String := none
  contributions : ℕ := 0
  type : Option String := none
deriving Repr, DecidableEq

/-- A parsed contributor as returned by `GitHubClient.get_contributors`. -/
structure Contributor where
  login : Option String := none
  node_id : Option String := none
  contributions : ℕ := 0
deriving Repr, DecidableEq

/-- Outcome of the HTTP GET (after `_retry_request`) for one repo's
contributors: a 404, a successful body, or an exception that escaped the
retry wrapper (non-retryable status or exhausted retries). -/
inductive ContribResp where
  | notFound
  | ok (body : List RawContributor)
  | failed
deriving Repr, DecidableEq

/-- `GitHubClient.get_contributors` (client.py lines 180-231): a 404 yields
`[]`, a body is filtered to `type == "User"` entries and projected to
(login, node_id, contributions), and an exception propagates. -/
def get_contributors (resp : ContribResp) : Except Unit (List Contributor) :=
  match resp with
  | .notFound => .ok []
  | .ok body => .ok ((body.filter (fun c => c.type = some "User")).map
      (fun c => { login := c.login, node_id := c.node_id, contributions := c.contributions }))
  | .failed => .error ()

/-- An element of the `repos` argument of `get_contributors_batch`: a dict
with `owner`/`name` keys. -/
structure RepoRef where
  owner : Option String := none
  name : Option String := none
deriving Repr, DecidableEq

/-- Assignment into a Python dict (`d[k] = v`): overwrite in place when the
key exists, append otherwise. -/
def updAssoc {α : Type} : List (String × α) → String → α → List (String × α)
  | [], k, v => [(k, v)]
  | (k', v') :: rest, k, v =>
      if k' = k then (k', v) :: rest else (k', v') :: updAssoc rest k v

/-- Python `d.get(k)` on an insertion-ordered dict. -/
def lookupAssoc {α : Type} : List (String × α) → String → Option α
  | [], _ => none
  | (k', v') :: rest, k => if k' = k then some v' else lookupAssoc rest k

/-- The contributor list the batch stores for one repo: the result of
`get_contributors`, with an exception (from `asyncio.gather` with
`return_exceptions=True`) converted to `[]` (client.py lines 273-278). -/
def contribsOrEmpty (r : ContribResp) : List Contributor :=
  match get_contributors r with
  | .ok cs => cs
  | .error _ => []

/-- One repo of the batch fan-out (client.py lines 262-278): a repo whose
`owner` and `name` are truthy is fetched and its (possibly
exception-converted-to-empty) result stored under `"owner/name"`. -/
def batchStep (resp : String → String → ContribResp)
    (acc : List (String × List Contributor)) (rp : RepoRef) :
    List (String × List Contributor) :=
  match rp.owner, rp.name with
  | some o, some n =>
    if o ≠ "" ∧ n ≠ "" then updAssoc acc (o ++ "/" ++ n) (contribsOrEmpty (resp o n))
    else acc
  | _, _ => acc

/-- `GitHubClient.get_contributors_batch` (client.py lines 233-282). -/
def get_contributors_batch (resp : String → String → ContribResp)
    (repos : List RepoRef) : List (String × List Contributor) :=
  repos.foldl (batchStep resp) []

/-! ## Contributor aggregation (repo_pipeline.py, step 3) -/

/-- `min(repo["stargazerCount"] / 100.0, 10.0)` (repo_pipeline.py line 94). -/
def repoWeight (stars : ℕ) : ℚ := min ((stars : ℚ) / 100) 10

/-- The two accumulators of step 3: `contributor_scores`
(a `defaultdict(float)`) and `contributor_node_ids`, both insertion-ordered
dicts keyed by login. -/
structure AggState where
  scores : List (String × ℚ)
  ids : List (String × String)
deriving Repr, DecidableEq

/-- `contributor_scores[login] += delta` on a `defaultdict(float)`. -/
def addScore : List (String × ℚ) → String → ℚ → List (String × ℚ)
  | [], l, d => [(l, d)]
  | (k, v) :: rest, l, d =>
      if k = l then (k, v + d) :: rest else (k, v) :: addScore rest l d

/-- The inner loop `for rank, contrib in enumerate(contributors)`
(repo_pipeline.py lines 97-107): when both `login` and `node_id` are truthy,
record the node id (plain dict assignment) and add
`repo_weight * (1 / (rank + 1)) * log(contributions + 1)` to the login's
running score. -/
def processContribs (log1p : ℕ → ℚ) (w : ℚ) :
    List Contributor → ℕ → AggState → AggState
  | [], _, st => st
  | c :: rest, rank, st =>
    let st' :=
      match c.login, c.node_id with
      | some l, some n =>
        if l ≠ "" ∧ n ≠ "" then
          { scores := addScore st.scores l (w * (1 / ((rank : ℚ) + 1)) * log1p c.contributions)
            ids := updAssoc st.ids l n }
        else st
      | _, _ => st
    processContribs log1p w rest (rank + 1) st'

/-- One repo of the outer loop (repo_pipeline.py lines 91-107). `fetch` maps
a repo's fully-qualified name to `contributors_by_repo.get(key, [])`. -/
def processRepo (log1p : ℕ → ℚ) (fetch : String → List Contributor)
    (st : AggState) (rp : Repo) : AggState :=
  processContribs log1p (repoWeight rp.stargazerCount) (fetch rp.nameWithOwner) 0 st

/-- Step 3 over the whole top-repo list, starting from empty dicts. -/
def aggregateScores (log1p : ℕ → ℚ) (repos : List Repo)
    (fetch : String → List Contributor) : AggState :=
  repos.foldl (processRepo log1p fetch) ⟨[], []⟩

/-! ## The full pipeline (repo_pipeline.py, `run_repo_contributors_pipeline`) -/

/-- `{"owner": r["owner_login"], "name": r["name"]}` (repo_pipeline.py
lines 77-80). -/
def refOf (r : Repo) : RepoRef where
  owner := some r.owner_login
  name := some r.name

/-- The contributor lookup the aggregation step uses:
`contributors_by_repo.get(repo_key, [])` over the batch fetched for the top
repos (repo_pipeline.py lines 77-96). -/
def pipelineFetch (resp : String → String → ContribResp) (top_repos : List Repo) :
    String → List Contributor :=
  fun key => (lookupAssoc (get_contributors_batch resp (top_repos.map refOf)) key).getD []

/-- The descending stable sort of `sorted(contributor_scores.items(),
key=lambda x: x[1], reverse=True)`. -/
def scoreLe (a b : String × ℚ) : Prop := b.2 ≤ a.2

instance : DecidableRel scoreLe := fun a b => inferInstanceAs (Decidable (b.2 ≤ a.2))

instance : IsTotal (String × ℚ) scoreLe := ⟨fun a b => le_total b.2 a.2⟩

instance : IsTrans (String × ℚ) scoreLe := ⟨fun _ _ _ h1 h2 => le_trans h2 h1⟩

/-- `run_repo_contributors_pipeline` (repo_pipeline.py lines 11-139).
External effects are explicit: `search` is `github_client.search_repos`
composed with `parse_repo_data` (per query: `none` = raised, caught and
skipped), `resp` is the per-repo contributors HTTP outcome, and `hydrate`
is `github_client.hydrate_users`, whose failure (`Except.error`)
propagates. The result pairs the hydrated users with
`dict(sorted_contributors)`. -/
def run_repo_contributors_pipeline (log1p : ℕ → ℚ) (spec : GitScoutJDSpec)
    (queries : List String)
    (search : String → Option (List (Option Repo)))
    (resp : String → String → ContribResp)
    (hydrate : List String → Except String (List UserData))
    (max_repos : ℕ) :
    Except String (List UserData × List (String × ℚ)) :=
  let top_repos := discoverRepos spec search queries max_repos
  if top_repos = [] then .ok ([], [])
  else
    let st := aggregateScores log1p top_repos (pipelineFetch resp top_repos)
    if st.ids = [] then .ok ([], [])
    else
      let sorted_contributors := (List.insertionSort scoreLe st.scores).take 50
      let top_node_ids := sorted_contributors.filterMap (fun p => lookupAssoc st.ids p.1)
      match (if top_node_ids = [] then Except.ok [] else hydrate top_node_ids) with
      | .error e => .error e
      | .ok enriched_users => .ok (enriched_users, sorted_contributors)

/-! ## Mock LLM provider (llm/mock.py, `MockLLMProvider.generate_jd_spec`)

The local deterministic keyword extractor: fixed vocabularies scanned
against the lowercased job text. Python dicts iterate in insertion order,
so each vocabulary is an ordered association list. -/

/-- The `for key, value in vocab: if key in jd_lower and value not in acc:
acc.append(value)` accumulation used for every vocabulary scan. -/
def extractVocab (jdl : String) (vocab : List (String × String)) : List String :=
  vocab.foldl (fun acc kv =>
    if strIn kv.1 jdl ∧ kv.2 ∉ acc then acc ++ [kv.2] else acc) []

/-- `lang_map` (mock.py lines 66-71). -/
def lang_map : List (String × String) :=
  [("python", "Python"), ("javascript", "JavaScript"), ("typescript", "TypeScript"),
   ("java", "Java"), ("go", "Go"), ("golang", "Go"), ("rust", "Rust"),
   ("c++", "C++"), ("ruby", "Ruby"), ("php", "PHP"), ("swift", "Swift"),
   ("kotlin", "Kotlin"), ("scala", "Scala")]

/-- `domain_keywords` (mock.py lines 78-85). -/
def domain_keywords : List (String × String) :=
  [("machine learning", "machine-learning"), ("ml", "machine-learning"),
   ("distributed systems", "distributed-systems"), ("backend", "backend"),
   ("frontend", "frontend"), ("full stack", "fullstack"), ("devops", "devops"),
   ("data science", "data-science"), ("deep learning", "deep-learning"),
   ("web development", "web-development"), ("mobile", "mobile"),
   ("cloud", "cloud-computing"), ("microservices", "microservices")]

/-- `keyword_list` (mock.py lines 92-96). -/
def keyword_list : List String :=
  ["kubernetes", "docker", "kafka", "grpc", "ray", "spark",
   "tensorflow", "pytorch", "react", "vue", "angular",
   "django", "fastapi", "flask", "aws", "gcp", "azure",
   "postgres", "mongodb", "redis", "elasticsearch",
   "graphql", "rest", "airflow", "celery"]

/-- `nice_list` (mock.py lines 107-108). -/
def nice_list : List String :=
  ["terraform", "ansible", "jenkins", "gitlab", "prometheus",
   "grafana", "nginx", "rabbitmq", "consul", "vault"]

/-- `location_patterns` scan with `break` (mock.py lines 117-122): the first
matching pattern wins, and a `"remote"` match yields no hint. -/
def findLocation (jdl : String) : Option String :=
  match ["remote", "san francisco", "new york", "london", "berlin",
         "seattle", "austin"].find? (fun loc => strIn loc jdl) with
  | some loc => if loc = "remote" then none else some loc
  | none => none

/-- `MockLLMProvider.generate_jd_spec` (mock.py lines 57-140). The Python
method returns a dict whose keys are exactly the `GitScoutJDSpec` fields;
`GitScoutJDSpec(**d)` on such a well-typed dict is the identity, so the
model returns the structure directly. -/
def mock_generate_jd_spec (jd : String) : GitScoutJDSpec :=
  let jdl := lowerStr jd
  let languages := extractVocab jdl lang_map
  let domains := extractVocab jdl domain_keywords
  let core_keywords0 := extractVocab jdl (keyword_list.map (fun k => (k, k)))
  -- generic defaults when languages were found but nothing else
  let core_keywords :=
    if languages ≠ [] ∧ core_keywords0 = [] ∧ domains = [] then
      ["api", "library", "framework", "cli", "sdk"]
    else core_keywords0
  let nice_keywords := extractVocab jdl (nice_list.map (fun k => (k, k)))
  let is_senior := ["senior", "staff", "principal", "lead",
                    "5+ years", "7+ years", "10+ years"].any (fun t => strIn t jdl)
  { role_title := none
    languages := languages.take 3
    core_domains := domains.take 3
    core_keywords := core_keywords.take 8
    nice_keywords := nice_keywords.take 5
    recency_days := 365
    min_repo_stars := if is_senior then 50 else 20
    exclude_forks := true
    exclude_archived := true
    min_followers := if is_senior then 10 else 0
    location_hint := findLocation jdl
    max_repo_queries := 8
    max_repos_per_query := 20 }

/-! ## SpecExtractor (query_generator.py, `generate_jd_spec`) -/

/-- The external text-generation provider: structured extraction and vague-
query rewriting, each of which may raise (`Except.error`). An extraction
whose payload is malformed (bad JSON, or a dict `GitScoutJDSpec(**d)` would
reject) raises in the same `try` block as the call itself, so it is also
an `Except.error` of `genSpec`. -/
structure LLMProviderM where
  genSpec : String → Except String GitScoutJDSpec
  rewrite_vague_query : String → Except String String

/-- The rewrite-then-reextract cycle (query_generator.py lines 87-95): ask
the provider to rewrite the vague job text and re-run extraction on the
result; any exception inside the cycle is caught, keeping the original
extraction. -/
def rewriteReextract (llm : LLMProviderM) (jd : String)
    (d0 : GitScoutJDSpec) : GitScoutJDSpec :=
  match llm.rewrite_vague_query jd with
  | .error _ => d0
  | .ok rewritten =>
    match llm.genSpec rewritten with
    | .error _ => d0
    | .ok d' => d'

/-- The mock-fallback merge (query_generator.py lines 104-111): fill only
the still-empty list fields from the fallback's non-empty fields. -/
def mergeFallback (d fb : GitScoutJDSpec) : GitScoutJDSpec :=
  { d with
    languages :=
      if d.languages = [] ∧ fb.languages ≠ [] then fb.languages else d.languages
    core_domains :=
      if d.core_domains = [] ∧ fb.core_domains ≠ [] then fb.core_domains else d.core_domains
    core_keywords :=
      if d.core_keywords = [] ∧ fb.core_keywords ≠ [] then fb.core_keywords else d.core_keywords
    nice_keywords :=
      if d.nice_keywords = [] ∧ fb.nice_keywords ≠ [] then fb.nice_keywords else d.nice_keywords }

/-- `generate_jd_spec` (query_generator.py lines 65-120). The outer `try`
catches the initial provider call's failure and falls back directly to the
mock extractor; the rewrite-then-reextract cycle runs only when extraction
succeeded but returned empty `languages` and `core_keywords`; after a
still-empty cycle the mock's non-empty fields are merged in. -/
def generate_jd_spec (llm : LLMProviderM) (jd : String) : GitScoutJDSpec :=
  match llm.genSpec jd with
  | .error _ => mock_generate_jd_spec jd
  | .ok d0 =>
    if d0.languages = [] ∧ d0.core_keywords = [] then
      let d1 := rewriteReextract llm jd d0
      if d1.languages = [] ∧ d1.core_keywords = [] then
        mergeFallback d1 (mock_generate_jd_spec jd)
      else d1
    else d0

/-- The extraction chain exactly as the spec's §4.1 words it (modelled from
the spec, for comparison with the source-derived `generate_jd_spec`): *"if
the external provider call fails outright, OR returns a spec with both
`languages` and `core_keywords` empty ... attempt one rewrite-then-reextract
cycle ... If still empty, fall back to a fully local deterministic
keyword-matching extractor and merge its non-empty fields into any
partially-populated spec."* A failed provider call leaves an empty,
default-valued spec to continue from. -/
def extract_spec_as_claimed (llm : LLMProviderM) (jd : String) : GitScoutJDSpec :=
  let d0 := match llm.genSpec jd with
    | .ok d => d
    | .error _ => {}
  if d0.languages = [] ∧ d0.core_keywords = [] then
    let d1 := rewriteReextract llm jd d0
    if d1.languages = [] ∧ d1.core_keywords = [] then
      mergeFallback d1 (mock_generate_jd_spec jd)
    else d1
  else d0

/-- A provider whose extraction calls always fail but whose rewrite
succeeds, and whose extraction on the rewritten text would succeed —
separating the spec's claimed failure handling from the code's. -/
def downThenGoodProvider : LLMProviderM where
  genSpec := fun s =>
    if s = "REWRITTEN" then .ok { languages := ["Python"] } else .error "provider down"
  rewrite_vague_query := fun _ => .ok "REWRITTEN"

/-! ## Auxiliary definitions used by the statements and proofs -/

/-- The per-(rank, contributor) score deltas a single contributor list
contributes to `login`, starting at rank `rank` — the arithmetic content of
`processContribs` without the map plumbing. -/
def deltaSum (log1p : ℕ → ℚ) (w : ℚ) :
    List Contributor → ℕ → String → ℚ
  | [], _, _ => 0
  | c :: rest, rank, login =>
    (match c.login, c.node_id with
     | some l, some n =>
       if l ≠ "" ∧ n ≠ "" ∧ l = login then
         w * (1 / ((rank : ℚ) + 1)) * log1p c.contributions
       else 0
     | _, _ => 0) + deltaSum log1p w rest (rank + 1) login

/-- The node ids one contributor list records for `login`, in order: one
entry per occurrence of `login` as a valid (truthy login and node id)
contributor. -/
def contribOccs (cs : List Contributor) (login : String) : List String :=
  cs.filterMap (fun c =>
    match c.login, c.node_id with
    | some l, some n => if l ≠ "" ∧ n ≠ "" ∧ l = login then some n else none
    | _, _ => none)

/-- The node ids recorded for `login` across all repos, in processing
order. -/
def nodeOccurrences (repos : List Repo) (fetch : String → List Contributor)
    (login : String) : List String :=
  repos.flatMap (fun rp => contribOccs (fetch rp.nameWithOwner) login)

/-- `contributor_scores[login]` after aggregation: a `defaultdict(float)`
lookup, defaulting to `0`. -/
def scoreOf (st : AggState) (login : String) : ℚ :=
  (lookupAssoc st.scores login).getD 0

/-- The `(owner, name)` pairs of the batch request that pass the
`if owner and name` truthiness guard, in order. -/
def validRefs (repos : List RepoRef) : List (String × String) :=
  repos.filterMap (fun rp =>
    match rp.owner, rp.name with
    | some o, some n => if o ≠ "" ∧ n ≠ "" then some (o, n) else none
    | _, _ => none)

/-- A repo-list normalisation following the claim's words: every dict key
the scorer reads is filled with the default its `.get` call supplies, and a
push timestamp the date parser rejects is erased. For comparison with the
source-derived scorer. -/
def fillRepoDefaults (parseDate : String → Option ℤ) (r : RepoData) : RepoData where
  stargazerCount := some (r.stargazerCount.getD 0)
  isFork := some (r.isFork.getD false)
  languages := some (r.languages.getD [])
  pushedAt :=
    match r.pushedAt with
    | some s => match parseDate s with
      | some _ => some s
      | none => none
    | none => none

/-- The profile-dict normalisation following the claim's words (see
`fillRepoDefaults`). -/
def fillDefaults (parseDate : String → Option ℤ) (u : UserData) : UserData where
  login := u.login
  repositories := some ((u.repositories.getD []).map (fillRepoDefaults parseDate))
  totalCommits := some (u.totalCommits.getD 0)
  followers := some (u.followers.getD 0)
  contrib_score_seed := some (u.contrib_score_seed.getD 0)

/-! ### Concrete instances for counterexamples and witnesses -/

/-- A profile with a single repository carrying only a push timestamp. -/
def oneRepoProfile : UserData where
  login := some "u"
  repositories := some [{ pushedAt := some "2024-01-01T00:00:00Z" }]

/-- A date parser mapping every timestamp to day `0`. -/
def dayZeroParse : String → Option ℤ := fun _ => some 0

/-- Two repositories under which the same login appears with two different
node ids. -/
def repoA : Repo where
  name := "a"
  nameWithOwner := "r/a"
  owner_login := "r"
  stargazerCount := 500

def repoB : Repo where
  name := "b"
  nameWithOwner := "r/b"
  owner_login := "r"
  stargazerCount := 50

/-- Contributor lists for `repoA`/`repoB`: the login `alice` occurs in both,
with node id `n1` first and `n2` second. -/
def fetchAB : String → List Contributor := fun key =>
  if key = "r/a" then [{ login := some "alice", node_id := some "n1", contributions := 5 }]
  else if key = "r/b" then [{ login := some "alice", node_id := some "n2", contributions := 3 }]
  else []

/-! ## C3 — query builder well-formedness -/

theorem foldl_preserve {α β : Type} {P : β → Prop} {f : β → α → β}
    (hf : ∀ acc a, P acc → P (f acc a)) :
    ∀ (l : List α) (acc : β), P acc → P (l.foldl f acc)
  | [], _, h => h
  | a :: l, acc, h => foldl_preserve hf l (f acc a) (hf acc a h)

theorem addIfOk_bound (qs : List String) (q : String)
    (h : ∀ x ∈ qs, x.length ≤ 256) : ∀ x ∈ addIfOk qs q, x.length ≤ 256 := by
  unfold addIfOk
  split
  · next hc =>
      intro x hx
      rcases List.mem_append.mp hx with hx | hx
      · exact h x hx
      · rw [List.mem_singleton.mp hx]
        exact hc.1
  · exact h

theorem addIfShort_bound (qs : List String) (q : String)
    (h : ∀ x ∈ qs, x.length ≤ 256) : ∀ x ∈ addIfShort qs q, x.length ≤ 256 := by
  unfold addIfShort
  split
  · next hc =>
      intro x hx
      rcases List.mem_append.mp hx with hx | hx
      · exact h x hx
      · rw [List.mem_singleton.mp hx]
        exact hc
  · exact h

theorem built_queries_bound (spec : GitScoutJDSpec) (rd : String) :
    ∀ x ∈ built_queries spec rd, x.length ≤ 256 := by
  unfold built_queries
  have h1 : ∀ x ∈ queries_strategy1 spec (base_filter_str spec rd), x.length ≤ 256 := by
    unfold queries_strategy1
    exact foldl_preserve (P := fun qs : List String => ∀ x ∈ qs, x.length ≤ 256)
      (fun acc lang hacc =>
        foldl_preserve (P := fun qs : List String => ∀ x ∈ qs, x.length ≤ 256)
          (fun a2 d h2 => addIfOk_bound _ _ h2) _ _ hacc)
      _ _ (by intro x hx; cases hx)
  have h2 : ∀ qs0, (∀ x ∈ qs0, x.length ≤ 256) →
      ∀ x ∈ queries_strategy2 spec (base_filter_str spec rd) qs0, x.length ≤ 256 := by
    intro qs0 h0
    unfold queries_strategy2
    exact foldl_preserve (P := fun qs : List String => ∀ x ∈ qs, x.length ≤ 256)
      (fun acc lang hacc =>
        foldl_preserve (P := fun qs : List String => ∀ x ∈ qs, x.length ≤ 256)
          (fun a2 k h2 => addIfOk_bound _ _ h2) _ _ hacc)
      _ _ h0
  have h4 : ∀ qs0, (∀ x ∈ qs0, x.length ≤ 256) →
      ∀ x ∈ queries_strategy4 spec (base_filter_str spec rd) qs0, x.length ≤ 256 := by
    intro qs0 h0
    unfold queries_strategy4
    split
    · exact foldl_preserve (P := fun qs : List String => ∀ x ∈ qs, x.length ≤ 256)
        (fun acc lang hacc => addIfShort_bound _ _ hacc) _ _ h0
    · exact h0
  have h5 : ∀ qs0, (∀ x ∈ qs0, x.length ≤ 256) →
      ∀ x ∈ queries_strategy5 spec (base_filter_str spec rd) qs0, x.length ≤ 256 := by
    intro qs0 h0
    unfold queries_strategy5
    split
    · exact foldl_preserve (P := fun qs : List String => ∀ x ∈ qs, x.length ≤ 256)
        (fun acc d hacc => addIfOk_bound _ _ hacc) _ _ h0
    · exact h0
  have h6 : ∀ qs0, (∀ x ∈ qs0, x.length ≤ 256) →
      ∀ x ∈ queries_strategy6 spec (base_filter_str spec rd) qs0, x.length ≤ 256 := by
    intro qs0 h0
    unfold queries_strategy6
    split
    · exact foldl_preserve (P := fun qs : List String => ∀ x ∈ qs, x.length ≤ 256)
        (fun acc k hacc => addIfOk_bound _ _ hacc) _ _ h0
    · exact h0
  have h7 : ∀ qs0, (∀ x ∈ qs0, x.length ≤ 256) →
      ∀ x ∈ queries_strategy7 (base_filter_str spec rd) qs0, x.length ≤ 256 := by
    intro qs0 h0
    unfold queries_strategy7
    split
    · exact addIfShort_bound _ _ (by intro x hx; cases hx)
    · exact h0
  exact h7 _ (h6 _ (h5 _ (h4 _ (h2 _ h1))))

theorem mem_dedupFirstAux :
    ∀ (l : List String) (seen : List String) (x : String),
      x ∈ dedupFirstAux seen l → x ∈ l ∧ x ∉ seen
  | [], _, x, hx => by cases hx
  | q :: rest, seen, x, hx => by
      unfold dedupFirstAux at hx
      split at hx
      · rcases mem_dedupFirstAux rest seen x hx with ⟨h1, h2⟩
        exact ⟨List.mem_cons_of_mem _ h1, h2⟩
      · next hq =>
          rcases List.mem_cons.mp hx with rfl | hx
          · exact ⟨List.mem_cons_self _ _, hq⟩
          · rcases mem_dedupFirstAux rest (q :: seen) x hx with ⟨h1, h2⟩
            exact ⟨List.mem_cons_of_mem _ h1,
              fun hs => h2 (List.mem_cons_of_mem _ hs)⟩

theorem dedupFirstAux_nodup :
    ∀ (l : List String) (seen : List String), (dedupFirstAux seen l).Nodup
  | [], _ => List.nodup_nil
  | q :: rest, seen => by
      unfold dedupFirstAux
      split
      · exact dedupFirstAux_nodup rest seen
      · refine List.nodup_cons.mpr ⟨fun hq => ?_, dedupFirstAux_nodup rest (q :: seen)⟩
        exact (mem_dedupFirstAux rest (q :: seen) q hq).2 (List.mem_cons_self _ _)

theorem dedupFirst_nodup (l : List String) : (dedupFirst l).Nodup :=
  dedupFirstAux_nodup l []

theorem mem_dedupFirst (l : List String) (x : String) (hx : x ∈ dedupFirst l) : x ∈ l :=
  (mem_dedupFirstAux l [] x hx).1

theorem pySlice_sublist {α : Type} (n : ℤ) (l : List α) : (pySlice n l).Sublist l := by
  unfold pySlice
  split
  · exact List.take_sublist _ _
  · exact List.take_sublist _ _

theorem pySlice_length_le {α : Type} (n : ℤ) (l : List α) (h : 0 ≤ n) :
    ((pySlice n l).length : ℤ) ≤ n := by
  unfold pySlice
  rw [if_pos h]
  calc ((l.take n.toNat).length : ℤ)
      ≤ (n.toNat : ℤ) := by
        exact_mod_cast Nat.le_of_eq (List.length_take _ _) |>.trans (min_le_left _ _)
  _ = n := Int.toNat_of_nonneg h

/-- C3: for every `RequirementSpec` (whose numeric fields are non-negative,
per the data-model invariant), the query builder returns a list in which
every string has length ≤ 256, no two strings are equal, and the count is
at most `max_repo_queries`. An over-long candidate never appears (it is
omitted by the guarded appends, not truncated). -/
theorem generate_repo_queries_wellformed (spec : GitScoutJDSpec) (recency_date : String)
    (h : 0 ≤ spec.max_repo_queries) :
    (∀ q ∈ generate_repo_queries spec recency_date, q.length ≤ 256)
    ∧ (generate_repo_queries spec recency_date).Nodup
    ∧ ((generate_repo_queries spec recency_date).length : ℤ) ≤ spec.max_repo_queries := by
  unfold generate_repo_queries
  refine ⟨?_, ?_, ?_⟩
  · intro q hq
    exact built_queries_bound spec recency_date q
      (mem_dedupFirst _ q ((pySlice_sublist _ _).mem hq))
  · exact (pySlice_sublist _ _).nodup (dedupFirst_nodup _)
  · exact pySlice_length_le _ _ h

/-- C3 witness: the well-formedness conclusion holds at a concrete spec. -/
theorem generate_repo_queries_wellformed_witness :
    (0 : ℤ) ≤ ({ languages := ["Python", "Go"], core_domains := ["backend"] } :
        GitScoutJDSpec).max_repo_queries
    ∧ ((∀ q ∈ generate_repo_queries
          { languages := ["Python", "Go"], core_domains := ["backend"] } "2024-01-01",
          q.length ≤ 256)
       ∧ (generate_repo_queries
          { languages := ["Python", "Go"], core_domains := ["backend"] } "2024-01-01").Nodup
       ∧ ((generate_repo_queries
          { languages := ["Python", "Go"], core_domains := ["backend"] } "2024-01-01").length : ℤ)
          ≤ ({ languages := ["Python", "Go"], core_domains := ["backend"] } :
              GitScoutJDSpec).max_repo_queries) :=
  ⟨by decide,
   generate_repo_queries_wellformed
     { languages := ["Python", "Go"], core_domains := ["backend"] } "2024-01-01" (by decide)⟩

/-! ## C1 — scorer bounds -/

theorem round2_nonneg {x : ℚ} (h : 0 ≤ x) : 0 ≤ round2 x := by
  unfold round2
  have h0 : round (0 : ℚ) ≤ round (x * 100) := by
    rw [round_eq, round_eq]
    exact Int.floor_mono (by linarith)
  rw [round_zero] at h0
  have hc : (0 : ℚ) ≤ (round (x * 100) : ℚ) := by exact_mod_cast h0
  exact div_nonneg hc (by norm_num)

theorem round2_le_100 {x : ℚ} (h : x ≤ 100) : round2 x ≤ 100 := by
  unfold round2
  have h0 : round (x * 100) ≤ round ((10000 : ℚ)) := by
    rw [round_eq, round_eq]
    exact Int.floor_mono (by linarith)
  have h1 : round ((10000 : ℚ)) = 10000 := by
    norm_num [round_eq]
  rw [h1] at h0
  have hc : (round (x * 100) : ℚ) ≤ 10000 := by exact_mod_cast h0
  linarith

theorem repo_count_score_nonneg (u : UserData) : 0 ≤ repo_count_score u :=
  le_min (div_nonneg (Nat.cast_nonneg _) (by norm_num)) (by norm_num)

theorem stars_score_nonneg (u : UserData) : 0 ≤ stars_score u :=
  le_min (div_nonneg (Nat.cast_nonneg _) (by norm_num)) (by norm_num)

theorem commits_score_nonneg (u : UserData) : 0 ≤ commits_score u :=
  le_min (div_nonneg (Nat.cast_nonneg _) (by norm_num)) (by norm_num)

theorem language_score_nonneg (u : UserData) : 0 ≤ language_score u :=
  le_min (mul_nonneg (Nat.cast_nonneg _) (by norm_num)) (by norm_num)

theorem activity_score_nonneg (parseDate : String → Option ℤ) (now : ℤ) (u : UserData) :
    0 ≤ activity_score parseDate now u :=
  le_min (mul_nonneg (Nat.cast_nonneg _) (by norm_num)) (by norm_num)

theorem followers_score_nonneg (u : UserData) : 0 ≤ followers_score u :=
  le_min (div_nonneg (Nat.cast_nonneg _) (by norm_num)) (by norm_num)

theorem seed_score_nonneg (u : UserData) (h : 0 ≤ u.contrib_score_seed.getD 0) :
    0 ≤ seed_score u :=
  le_min (mul_nonneg h (by norm_num)) (by norm_num)

/-- C1: for every profile (with a non-negative aggregator seed, as the
pipeline produces), `calculate_score` lands in `[0, 100]`; it is the
2-decimal rounding of the sum of the seven sub-scores, and each sub-score
is hard-capped at its stated maximum — 12 / 18 / 18 / 20 / 10 / 7 / 15 —
for arbitrary inputs. -/
theorem calculate_score_bounds (parseDate : String → Option ℤ) (now : ℤ)
    (u : UserData) (h : 0 ≤ u.contrib_score_seed.getD 0) :
    (0 ≤ calculate_score parseDate now u ∧ calculate_score parseDate now u ≤ 100)
    ∧ calculate_score parseDate now u =
        round2 (repo_count_score u + stars_score u + commits_score u + language_score u
          + activity_score parseDate now u + followers_score u + seed_score u)
    ∧ repo_count_score u ≤ 12 ∧ stars_score u ≤ 18 ∧ commits_score u ≤ 18
    ∧ language_score u ≤ 20 ∧ activity_score parseDate now u ≤ 10
    ∧ followers_score u ≤ 7 ∧ seed_score u ≤ 15 := by
  have c1 : repo_count_score u ≤ 12 := min_le_right _ _
  have c2 : stars_score u ≤ 18 := min_le_right _ _
  have c3 : commits_score u ≤ 18 := min_le_right _ _
  have c4 : language_score u ≤ 20 := min_le_right _ _
  have c5 : activity_score parseDate now u ≤ 10 := min_le_right _ _
  have c6 : followers_score u ≤ 7 := min_le_right _ _
  have c7 : seed_score u ≤ 15 := min_le_right _ _
  have n1 := repo_count_score_nonneg u
  have n2 := stars_score_nonneg u
  have n3 := commits_score_nonneg u
  have n4 := language_score_nonneg u
  have n5 := activity_score_nonneg parseDate now u
  have n6 := followers_score_nonneg u
  have n7 := seed_score_nonneg u h
  refine ⟨⟨round2_nonneg (by linarith), round2_le_100 (by linarith)⟩, rfl,
    c1, c2, c3, c4, c5, c6, c7⟩

/-- C1 witness: the bounds at a concrete profile. -/
theorem calculate_score_bounds_witness :
    0 ≤ oneRepoProfile.contrib_score_seed.getD 0
    ∧ ((0 ≤ calculate_score dayZeroParse 0 oneRepoProfile
          ∧ calculate_score dayZeroParse 0 oneRepoProfile ≤ 100)
       ∧ calculate_score dayZeroParse 0 oneRepoProfile =
           round2 (repo_count_score oneRepoProfile + stars_score oneRepoProfile
             + commits_score oneRepoProfile + language_score oneRepoProfile
             + activity_score dayZeroParse 0 oneRepoProfile + followers_score oneRepoProfile
             + seed_score oneRepoProfile)
       ∧ repo_count_score oneRepoProfile ≤ 12 ∧ stars_score oneRepoProfile ≤ 18
       ∧ commits_score oneRepoProfile ≤ 18 ∧ language_score oneRepoProfile ≤ 20
       ∧ activity_score dayZeroParse 0 oneRepoProfile ≤ 10
       ∧ followers_score oneRepoProfile ≤ 7 ∧ seed_score oneRepoProfile ≤ 15) :=
  ⟨by simp [oneRepoProfile],
   calculate_score_bounds dayZeroParse 0 oneRepoProfile (by simp [oneRepoProfile])⟩

/-! ## C6 — scorer/ranker determinism -/

/-- C6 counterexample: `calculate_score` reads the ambient clock
(`datetime.now()`, scorer.py line 54), so two evaluations of `score` on the
identical profile — at day 0 and at day 1000 — return different values:
the single repository is within the 180-day recency window at the first
evaluation and outside it at the second. -/
theorem calculate_score_time_dependent :
    calculate_score dayZeroParse 0 oneRepoProfile
      ≠ calculate_score dayZeroParse 1000 oneRepoProfile := by
  have h0 : calculate_score dayZeroParse 0 oneRepoProfile = 5 / 2 := by
    simp [calculate_score, round2, repo_count_score, stars_score, commits_score,
      language_score, activity_score, followers_score, seed_score, recent_repos,
      total_stars, all_languages, reposOf, oneRepoProfile, dayZeroParse, isRecentRepo]
    norm_num [round_eq]
  have h1 : calculate_score dayZeroParse 1000 oneRepoProfile = 1 / 2 := by
    simp [calculate_score, round2, repo_count_score, stars_score, commits_score,
      language_score, activity_score, followers_score, seed_score, recent_repos,
      total_stars, all_languages, reposOf, oneRepoProfile, dayZeroParse, isRecentRepo]
    norm_num [round_eq]
  rw [h0, h1]
  norm_num

/-- C6 amended: the scorer is a pure function of the profile and the
evaluation time — the clock enters only through the per-repo recency test,
so any two evaluation times at which every repository's recency test
agrees yield identical scores, and the ranker then yields the identical
candidate order. -/
theorem scorer_ranker_deterministic (parseDate : String → Option ℤ) (n1 n2 : ℤ)
    (users : List UserData)
    (h : ∀ u ∈ users, ∀ r ∈ reposOf u,
      isRecentRepo parseDate n1 r = isRecentRepo parseDate n2 r) :
    (∀ u ∈ users, calculate_score parseDate n1 u = calculate_score parseDate n2 u)
    ∧ rank_candidates parseDate n1 users = rank_candidates parseDate n2 users := by
  have hscore : ∀ u ∈ users,
      calculate_score parseDate n1 u = calculate_score parseDate n2 u := by
    intro u hu
    have hcnt : recent_repos parseDate n1 u = recent_repos parseDate n2 u := by
      unfold recent_repos
      exact List.countP_congr (fun r hr => by rw [h u hu r hr])
    unfold calculate_score activity_score
    rw [hcnt]
  refine ⟨hscore, ?_⟩
  unfold rank_candidates
  congr 1
  exact List.map_congr_left (fun u hu => by rw [hscore u hu])

/-- C6 witness: the amended determinism at a concrete profile list and a
concrete (equal) pair of evaluation times. -/
theorem scorer_ranker_deterministic_witness :
    (∀ u ∈ [oneRepoProfile], ∀ r ∈ reposOf u,
      isRecentRepo dayZeroParse 5 r = isRecentRepo dayZeroParse 5 r)
    ∧ ((∀ u ∈ [oneRepoProfile],
          calculate_score dayZeroParse 5 u = calculate_score dayZeroParse 5 u)
       ∧ rank_candidates dayZeroParse 5 [oneRepoProfile]
           = rank_candidates dayZeroParse 5 [oneRepoProfile]) :=
  ⟨fun _ _ _ _ => rfl,
   scorer_ranker_deterministic dayZeroParse 5 5 [oneRepoProfile] (fun _ _ _ _ => rfl)⟩

/-! ## C10 — scorer totality over partial dicts -/

theorem isRecentRepo_fill (parseDate : String → Option ℤ) (now : ℤ) (r : RepoData) :
    isRecentRepo parseDate now (fillRepoDefaults parseDate r) = isRecentRepo parseDate now r := by
  unfold isRecentRepo fillRepoDefaults
  cases hp : r.pushedAt with
  | none => rfl
  | some s =>
    cases hd : parseDate s with
    | none => simp [hd]
    | some d => simp [hd]

theorem total_stars_fill (parseDate : String → Option ℤ) (l : List RepoData) :
    (((l.map (fillRepoDefaults parseDate)).filter (fun r => ! r.isFork.getD false)).map
      (fun r => r.stargazerCount.getD 0)).sum
    = ((l.filter (fun r => ! r.isFork.getD false)).map
      (fun r => r.stargazerCount.getD 0)).sum := by
  induction l with
  | nil => rfl
  | cons r t ih =>
    by_cases hf : r.isFork.getD false
    · simp [List.filter_cons, fillRepoDefaults, hf, ih]
    · simp [List.filter_cons, fillRepoDefaults, hf, ih]

theorem languages_fill (parseDate : String → Option ℤ) (l : List RepoData) :
    (l.map (fillRepoDefaults parseDate)).flatMap (fun r => r.languages.getD [])
    = l.flatMap (fun r => r.languages.getD []) := by
  induction l with
  | nil => rfl
  | cons r t ih => simp [fillRepoDefaults, ih]

theorem countP_recent_fill (parseDate : String → Option ℤ) (now : ℤ) (l : List RepoData) :
    (l.map (fillRepoDefaults parseDate)).countP (isRecentRepo parseDate now)
    = l.countP (isRecentRepo parseDate now) := by
  induction l with
  | nil => rfl
  | cons r t ih => simp [List.countP_cons, isRecentRepo_fill, ih]

/-- C10: the scorer is total over partial profile dicts — its value on any
profile equals its value on the profile with every missing key filled with
the default the corresponding `.get` supplies and every unparseable push
timestamp erased; a repo whose push timestamp is absent, or which the
ISO-8601 parser rejects, is counted as not recent rather than raising. -/
theorem calculate_score_total_on_missing_fields (parseDate : String → Option ℤ) (now : ℤ)
    (u : UserData) :
    calculate_score parseDate now u
      = calculate_score parseDate now (fillDefaults parseDate u)
    ∧ (∀ r : RepoData, r.pushedAt = none → isRecentRepo parseDate now r = false)
    ∧ (∀ r : RepoData, ∀ s, r.pushedAt = some s → parseDate s = none →
        isRecentRepo parseDate now r = false) := by
  refine ⟨?_, ?_, ?_⟩
  · have hrepos : reposOf (fillDefaults parseDate u)
        = (reposOf u).map (fillRepoDefaults parseDate) := by
      simp [reposOf, fillDefaults]
    unfold calculate_score
    have e1 : repo_count_score (fillDefaults parseDate u) = repo_count_score u := by
      unfold repo_count_score
      rw [hrepos, List.length_map]
    have e2 : stars_score (fillDefaults parseDate u) = stars_score u := by
      unfold stars_score total_stars
      rw [hrepos, total_stars_fill]
    have e3 : commits_score (fillDefaults parseDate u) = commits_score u := by
      unfold commits_score
      simp [fillDefaults]
    have e4 : language_score (fillDefaults parseDate u) = language_score u := by
      unfold language_score all_languages
      rw [hrepos, languages_fill]
    have e5 : activity_score parseDate now (fillDefaults parseDate u)
        = activity_score parseDate now u := by
      unfold activity_score recent_repos
      rw [hrepos, countP_recent_fill]
    have e6 : followers_score (fillDefaults parseDate u) = followers_score u := by
      unfold followers_score
      simp [fillDefaults]
    have e7 : seed_score (fillDefaults parseDate u) = seed_score u := by
      unfold seed_score
      simp [fillDefaults]
    rw [e1, e2, e3, e4, e5, e6, e7]
  · intro r hr
    unfold isRecentRepo
    rw [hr]
  · intro r s hr hs
    unfold isRecentRepo
    rw [hr]
    simp [hs]

/-- C10 witness: the totality statement at a concrete partial profile whose
repo has an unparseable timestamp. -/
theorem calculate_score_total_on_missing_fields_witness :
    (calculate_score (fun _ => none) 0 oneRepoProfile
      = calculate_score (fun _ => none) 0 (fillDefaults (fun _ => none) oneRepoProfile))
    ∧ isRecentRepo (fun _ => none) 0
        { pushedAt := some "2024-01-01T00:00:00Z" } = false :=
  ⟨(calculate_score_total_on_missing_fields (fun _ => none) 0 oneRepoProfile).1,
   (calculate_score_total_on_missing_fields (fun _ => none) 0 oneRepoProfile).2.2
     { pushedAt := some "2024-01-01T00:00:00Z" } "2024-01-01T00:00:00Z" rfl rfl⟩

/-! ## C2 — aggregation formula and additivity -/

theorem scoreOf_addScore :
    ∀ (m : List (String × ℚ)) (l : String) (d : ℚ) (x : String),
      (lookupAssoc (addScore m l d) x).getD 0
        = (lookupAssoc m x).getD 0 + (if x = l then d else 0)
  | [], l, d, x => by
    by_cases hx : l = x
    · simp [addScore, lookupAssoc, hx]
    · have hx' : ¬ x = l := fun h => hx h.symm
      simp [addScore, lookupAssoc, hx, hx']
  | (k, v) :: rest, l, d, x => by
    by_cases hkl : k = l
    · subst hkl
      by_cases hkx : k = x
      · subst hkx
        simp [addScore, lookupAssoc]
      · have hkx' : ¬ x = k := fun h => hkx h.symm
        simp [addScore, lookupAssoc, hkx, hkx']
    · by_cases hkx : k = x
      · have hxl : ¬ x = l := fun h => hkl (hkx.trans h)
        simp [addScore, lookupAssoc, hkl, hkx, hxl]
      · simp [addScore, lookupAssoc, hkl, hkx, scoreOf_addScore rest l d x]

theorem scoreOf_processContribs (log1p : ℕ → ℚ) (w : ℚ) :
    ∀ (cs : List Contributor) (rank : ℕ) (st : AggState) (x : String),
      scoreOf (processContribs log1p w cs rank st) x
        = scoreOf st x + deltaSum log1p w cs rank x
  | [], rank, st, x => by simp [processContribs, deltaSum]
  | ⟨cl, cn, cc⟩ :: rest, rank, st, x => by
    cases cl with
    | none =>
      simp only [processContribs, deltaSum]
      rw [scoreOf_processContribs log1p w rest (rank + 1) st x]
      ring
    | some l =>
      cases cn with
      | none =>
        simp only [processContribs, deltaSum]
        rw [scoreOf_processContribs log1p w rest (rank + 1) st x]
        ring
      | some n =>
        simp only [processContribs, deltaSum]
        by_cases hg : l ≠ "" ∧ n ≠ ""
        · rw [if_pos hg, scoreOf_processContribs log1p w rest (rank + 1) _ x]
          have hst' : scoreOf
              { scores := addScore st.scores l (w * (1 / ((rank : ℚ) + 1)) * log1p cc)
                ids := updAssoc st.ids l n } x
              = scoreOf st x + (if x = l then w * (1 / ((rank : ℚ) + 1)) * log1p cc else 0) :=
            scoreOf_addScore st.scores l _ x
          rw [hst']
          by_cases hx : l = x
          · have hc1 : l ≠ "" ∧ n ≠ "" ∧ l = x := ⟨hg.1, hg.2, hx⟩
            have hc2 : x = l := hx.symm
            rw [if_pos hc1, if_pos hc2]
            ring
          · have hc1 : ¬ (l ≠ "" ∧ n ≠ "" ∧ l = x) := fun hc => hx hc.2.2
            have hc2 : ¬ x = l := fun h => hx h.symm
            rw [if_neg hc1, if_neg hc2]
            ring
        · have hg3 : ¬ (l ≠ "" ∧ n ≠ "" ∧ l = x) := fun hc => hg ⟨hc.1, hc.2.1⟩
          rw [if_neg hg, if_neg hg3, scoreOf_processContribs log1p w rest (rank + 1) st x]
          ring

theorem scoreOf_aggregate_foldl (log1p : ℕ → ℚ) (fetch : String → List Contributor) :
    ∀ (repos : List Repo) (st : AggState) (x : String),
      scoreOf (repos.foldl (processRepo log1p fetch) st) x
        = scoreOf st x
          + (repos.map (fun rp =>
              deltaSum log1p (repoWeight rp.stargazerCount) (fetch rp.nameWithOwner) 0 x)).sum
  | [], st, x => by simp
  | rp :: rest, st, x => by
    rw [List.foldl_cons, scoreOf_aggregate_foldl log1p fetch rest _ x]
    unfold processRepo
    rw [scoreOf_processContribs]
    simp [add_assoc]

theorem deltaSum_enumFrom (log1p : ℕ → ℚ) (w : ℚ) (x : String) :
    ∀ (cs : List Contributor) (r : ℕ),
      deltaSum log1p w cs r x
        = ((cs.enumFrom r).map (fun p =>
            match p.2.login, p.2.node_id with
            | some l, some n =>
              if l ≠ "" ∧ n ≠ "" ∧ l = x then
                w * (1 / ((p.1 : ℚ) + 1)) * log1p p.2.contributions
              else 0
            | _, _ => 0)).sum
  | [], r => by simp [deltaSum]
  | c :: rest, r => by
    rw [List.enumFrom_cons, List.map_cons, List.sum_cons]
    unfold deltaSum
    rw [deltaSum_enumFrom log1p w x rest (r + 1)]

/-- C2: in the aggregation step, a login's accumulated score is strictly
additive across repositories — the full run's score equals the sum of the
scores each repository would contribute in an independent single-repo run —
and one repository's contribution is exactly
`min(stars/100, 10) × (1/(rank+1)) × log(contributions+1)` summed over the
(0-indexed) ranked occurrences of the login in that repo's contributor
list. -/
theorem aggregation_additive_formula (log1p : ℕ → ℚ)
    (fetch : String → List Contributor) (repos : List Repo) (rp : Repo)
    (login : String) :
    scoreOf (aggregateScores log1p repos fetch) login
      = (repos.map (fun r => scoreOf (aggregateScores log1p [r] fetch) login)).sum
    ∧ scoreOf (aggregateScores log1p [rp] fetch) login
      = (((fetch rp.nameWithOwner).enum).map (fun p =>
          match p.2.login, p.2.node_id with
          | some l, some n =>
            if l ≠ "" ∧ n ≠ "" ∧ l = login then
              repoWeight rp.stargazerCount * (1 / ((p.1 : ℚ) + 1)) * log1p p.2.contributions
            else 0
          | _, _ => 0)).sum := by
  have hzero : scoreOf (⟨[], []⟩ : AggState) login = 0 := rfl
  have hsingle : ∀ r : Repo,
      scoreOf (aggregateScores log1p [r] fetch) login
        = deltaSum log1p (repoWeight r.stargazerCount) (fetch r.nameWithOwner) 0 login := by
    intro r
    unfold aggregateScores
    rw [scoreOf_aggregate_foldl, hzero]
    simp
  constructor
  · unfold aggregateScores
    rw [scoreOf_aggregate_foldl, hzero, zero_add]
    congr 1
    exact List.map_congr_left (fun r _ => (hsingle r).symm)
  · rw [hsingle rp]
    exact deltaSum_enumFrom log1p (repoWeight rp.stargazerCount) login _ 0

/-! ## C4 — node-id recording -/

/-- C4 counterexample: when the same login appears in two repositories with
different node ids, the recorded handle after aggregation is the *second*
one — `contributor_node_ids[login] = node_id` (repo_pipeline.py line 103)
overwrites on every occurrence, so first-seen does **not** win. -/
theorem node_id_first_seen_counterexample :
    lookupAssoc (aggregateScores (fun _ => 0) [repoA, repoB] fetchAB).ids "alice" = some "n2"
    ∧ lookupAssoc (aggregateScores (fun _ => 0) [repoA, repoB] fetchAB).ids "alice"
        ≠ some "n1" := by
  exact ⟨rfl, by decide⟩

theorem lookupAssoc_updAssoc {α : Type} :
    ∀ (m : List (String × α)) (l : String) (n : α) (x : String),
      lookupAssoc (updAssoc m l n) x = if l = x then some n else lookupAssoc m x
  | [], l, n, x => by simp [updAssoc, lookupAssoc]
  | (k, v) :: rest, l, n, x => by
    by_cases hkl : k = l
    · subst hkl
      by_cases hkx : k = x
      · simp [updAssoc, lookupAssoc, hkx]
      · simp [updAssoc, lookupAssoc, hkx]
    · by_cases hkx : k = x
      · subst hkx
        have hlx : ¬ l = k := fun h => hkl h.symm
        simp [updAssoc, lookupAssoc, hkl, hlx]
      · simp [updAssoc, lookupAssoc, hkl, hkx, lookupAssoc_updAssoc rest l n x]

theorem getLast?_cons_or {α : Type} (a : α) (l : List α) :
    (a :: l).getLast? = l.getLast?.or (some a) := by
  cases l with
  | nil => rfl
  | cons b t =>
    rw [List.getLast?_cons_cons]
    cases h : (b :: t).getLast? with
    | none => simp [List.getLast?_eq_none_iff] at h
    | some x => rfl

theorem idsOf_processContribs (log1p : ℕ → ℚ) (w : ℚ) :
    ∀ (cs : List Contributor) (rank : ℕ) (st : AggState) (x : String),
      lookupAssoc (processContribs log1p w cs rank st).ids x
        = ((contribOccs cs x).getLast?).or (lookupAssoc st.ids x)
  | [], rank, st, x => by simp [processContribs, contribOccs]
  | ⟨cl, cn, cc⟩ :: rest, rank, st, x => by
    cases cl with
    | none =>
      simp only [processContribs, contribOccs, List.filterMap_cons]
      rw [idsOf_processContribs log1p w rest (rank + 1) st x]
      rfl
    | some l =>
      cases cn with
      | none =>
        simp only [processContribs, contribOccs, List.filterMap_cons]
        rw [idsOf_processContribs log1p w rest (rank + 1) st x]
        rfl
      | some n =>
        have hocc0 : contribOccs (⟨some l, some n, cc⟩ :: rest) x
            = (if l ≠ "" ∧ n ≠ "" ∧ l = x then some n else none).toList
              ++ contribOccs rest x := by
          simp only [contribOccs, List.filterMap_cons]
          split
          · next heq =>
              rw [heq]
              rfl
          · next heq =>
              rw [heq]
              rfl
        simp only [processContribs]
        by_cases hg : l ≠ "" ∧ n ≠ ""
        · rw [if_pos hg]
          rw [idsOf_processContribs log1p w rest (rank + 1) _ x]
          by_cases hx : l = x
          · rw [hocc0, if_pos ⟨hg.1, hg.2, hx⟩]
            show ((contribOccs rest x).getLast?).or (lookupAssoc (updAssoc st.ids l n) x)
              = ((n :: contribOccs rest x).getLast?).or (lookupAssoc st.ids x)
            rw [getLast?_cons_or]
            have hid : lookupAssoc (updAssoc st.ids l n) x = some n := by
              rw [lookupAssoc_updAssoc, if_pos hx]
            rw [hid, Option.or_assoc]
            simp
          · rw [hocc0, if_neg (fun hc => hx hc.2.2)]
            have hid : lookupAssoc (updAssoc st.ids l n) x = lookupAssoc st.ids x := by
              rw [lookupAssoc_updAssoc, if_neg hx]
            show ((contribOccs rest x).getLast?).or (lookupAssoc (updAssoc st.ids l n) x)
              = ((Option.toList none ++ contribOccs rest x).getLast?).or (lookupAssoc st.ids x)
            rw [hid]
            rfl
        · have hg3 : ¬ (l ≠ "" ∧ n ≠ "" ∧ l = x) := fun hc => hg ⟨hc.1, hc.2.1⟩
          rw [if_neg hg]
          rw [idsOf_processContribs log1p w rest (rank + 1) st x]
          rw [hocc0, if_neg hg3]
          rfl

theorem idsOf_aggregate_foldl (log1p : ℕ → ℚ) (fetch : String → List Contributor) :
    ∀ (repos : List Repo) (st : AggState) (x : String),
      lookupAssoc ((repos.foldl (processRepo log1p fetch) st).ids) x
        = (nodeOccurrences repos fetch x).getLast?.or (lookupAssoc st.ids x)
  | [], st, x => by simp [nodeOccurrences]
  | rp :: rest, st, x => by
    rw [List.foldl_cons, idsOf_aggregate_foldl log1p fetch rest _ x]
    unfold processRepo
    rw [idsOf_processContribs]
    unfold nodeOccurrences
    rw [List.flatMap_cons, List.getLast?_append, Option.or_assoc]

/-- C4 amended: a login's node id is recorded on every valid occurrence and
each later occurrence overwrites the earlier one — after aggregation the
recorded handle is exactly the *last* node id seen for that login across
the processed repositories (and absent when the login never occurs
validly); occurrences always accumulate score. -/
theorem node_id_last_seen (log1p : ℕ → ℚ) (repos : List Repo)
    (fetch : String → List Contributor) (login : String) :
    lookupAssoc (aggregateScores log1p repos fetch).ids login
      = (nodeOccurrences repos fetch login).getLast? := by
  unfold aggregateScores
  rw [idsOf_aggregate_foldl]
  show (nodeOccurrences repos fetch login).getLast?.or none = _
  simp

/-! ## C5 — discovery dedup, ordering and truncation -/

theorem collectStep_names_nodup (spec : GitScoutJDSpec) (acc : List Repo)
    (node : Option Repo) (h : (acc.map Repo.nameWithOwner).Nodup) :
    ((collectStep spec acc node).map Repo.nameWithOwner).Nodup := by
  cases node with
  | none => exact h
  | some parsed =>
    simp only [collectStep]
    by_cases hmem : parsed.nameWithOwner ∈ acc.map Repo.nameWithOwner
    · rw [if_pos hmem]
      exact h
    · rw [if_neg hmem]
      split
      · exact h
      · split
        · exact h
        · rw [List.map_append]
          simp [List.nodup_append, h, hmem]

theorem discover_fold_names_nodup (spec : GitScoutJDSpec)
    (search : String → Option (List (Option Repo))) :
    ∀ (queries : List String) (acc : List Repo),
      (acc.map Repo.nameWithOwner).Nodup →
      (((queries.foldl (fun acc q =>
          match search q with
          | none => acc
          | some nodes => collectQuery spec acc nodes) acc)).map Repo.nameWithOwner).Nodup
  | [], _, h => h
  | q :: rest, acc, h => by
    rw [List.foldl_cons]
    apply discover_fold_names_nodup spec search rest
    cases hs : search q with
    | none => exact h
    | some nodes =>
      exact foldl_preserve (P := fun l : List Repo => (l.map Repo.nameWithOwner).Nodup)
        (fun a nd ha => collectStep_names_nodup spec a nd ha) nodes acc h

/-- C5: for every set of search queries (each either failing — skipped — or
returning an arbitrary node list), the discovery stage returns a list with
pairwise-distinct fully-qualified names (global dedup across queries),
sorted by star count descending with ties broken by last-push timestamp
descending, and truncated to `max_repos`. -/
theorem discoverRepos_wellformed (spec : GitScoutJDSpec)
    (search : String → Option (List (Option Repo)))
    (queries : List String) (max_repos : ℕ) :
    ((discoverRepos spec search queries max_repos).map Repo.nameWithOwner).Nodup
    ∧ (discoverRepos spec search queries max_repos).Pairwise repoLe
    ∧ (discoverRepos spec search queries max_repos).length ≤ max_repos := by
  unfold discoverRepos
  refine ⟨?_, ?_, ?_⟩
  · have hall : (((queries.foldl (fun acc q =>
        match search q with
        | none => acc
        | some nodes => collectQuery spec acc nodes) [])).map Repo.nameWithOwner).Nodup :=
      discover_fold_names_nodup spec search queries [] List.nodup_nil
    have hperm := (List.perm_insertionSort repoLe (queries.foldl (fun acc q =>
        match search q with
        | none => acc
        | some nodes => collectQuery spec acc nodes) [])).map Repo.nameWithOwner
    exact ((List.take_sublist _ _).map Repo.nameWithOwner).nodup (hperm.symm.nodup hall)
  · exact (List.sorted_insertionSort repoLe _).sublist (List.take_sublist _ _)
  · exact (List.length_take _ _).le.trans (min_le_left _ _) |>.trans (le_refl _)

/-! ## C7 — graceful emptiness -/

theorem collect_fold_empty (spec : GitScoutJDSpec)
    (search : String → Option (List (Option Repo))) :
    ∀ (queries : List String),
      (∀ q ∈ queries, search q = none ∨ search q = some []) →
      queries.foldl (fun acc q =>
        match search q with
        | none => acc
        | some nodes => collectQuery spec acc nodes) [] = []
  | [], _ => rfl
  | q :: rest, h => by
    rw [List.foldl_cons]
    have hstep : (match search q with
        | none => ([] : List Repo)
        | some nodes => collectQuery spec [] nodes) = [] := by
      rcases h q (List.mem_cons_self _ _) with h1 | h1
      · rw [h1]
      · rw [h1]
        rfl
    rw [hstep]
    exact collect_fold_empty spec search rest (fun p hp => h p (List.mem_cons_of_mem _ hp))

theorem discoverRepos_empty (spec : GitScoutJDSpec)
    (search : String → Option (List (Option Repo)))
    (queries : List String) (max_repos : ℕ)
    (h : ∀ q ∈ queries, search q = none ∨ search q = some []) :
    discoverRepos spec search queries max_repos = [] := by
  unfold discoverRepos
  rw [collect_fold_empty spec search queries h]
  simp

theorem batch_lookup_all_empty (resp : String → String → ContribResp)
    (h : ∀ o n, contribsOrEmpty (resp o n) = []) :
    ∀ (repos : List RepoRef) (acc : List (String × List Contributor)),
      (∀ k, (lookupAssoc acc k).getD [] = []) →
      ∀ k, (lookupAssoc (repos.foldl (batchStep resp) acc) k).getD [] = []
  | [], _, hacc, k => hacc k
  | rp :: rest, acc, hacc, k => by
    rw [List.foldl_cons]
    apply batch_lookup_all_empty resp h rest
    intro k'
    obtain ⟨ow, nm⟩ := rp
    cases ow with
    | none => exact hacc k'
    | some o =>
      cases nm with
      | none => exact hacc k'
      | some n =>
        simp only [batchStep]
        split
        · rw [lookupAssoc_updAssoc]
          split
          · rw [h o n]
            rfl
          · exact hacc k'
        · exact hacc k'

theorem aggregate_all_empty (log1p : ℕ → ℚ) (fetch : String → List Contributor)
    (h : ∀ k, fetch k = []) :
    ∀ (repos : List Repo), aggregateScores log1p repos fetch = ⟨[], []⟩ := by
  have hstep : ∀ rp, processRepo log1p fetch (⟨[], []⟩ : AggState) rp = ⟨[], []⟩ := by
    intro rp
    unfold processRepo
    rw [h rp.nameWithOwner]
    rfl
  intro repos
  unfold aggregateScores
  induction repos with
  | nil => rfl
  | cons rp rest ih =>
    rw [List.foldl_cons, hstep rp]
    exact ih

/-- C7: the pipeline returns `([], {})` without raising both when every
search query fails or returns zero repositories, and when no contributors
are found across all repositories — even with a hydration stage that would
fail if called. -/
theorem pipeline_graceful_empty (log1p : ℕ → ℚ) (spec : GitScoutJDSpec)
    (queries : List String)
    (search : String → Option (List (Option Repo)))
    (resp : String → String → ContribResp)
    (hydrate : List String → Except String (List UserData))
    (max_repos : ℕ)
    (h : (∀ q ∈ queries, search q = none ∨ search q = some [])
         ∨ (∀ o n, contribsOrEmpty (resp o n) = [])) :
    run_repo_contributors_pipeline log1p spec queries search resp hydrate max_repos
      = .ok ([], []) := by
  rcases h with h | h
  · unfold run_repo_contributors_pipeline
    rw [discoverRepos_empty spec search queries max_repos h]
    rfl
  · unfold run_repo_contributors_pipeline
    cases htop : discoverRepos spec search queries max_repos with
    | nil => rfl
    | cons rp rest =>
      have hfetch : ∀ key, pipelineFetch resp (rp :: rest) key = [] :=
        fun key => batch_lookup_all_empty resp h _ [] (fun _ => rfl) key
      rw [if_neg (List.cons_ne_nil rp rest)]
      rw [aggregate_all_empty log1p _ hfetch (rp :: rest)]
      rfl

/-- C7 witness: the empty pair at a concrete all-failing query set, with a
hydration function that would error if it were ever reached. -/
theorem pipeline_graceful_empty_witness :
    ((∀ q ∈ ["language:Python"],
        (fun _ : String => (none : Option (List (Option Repo)))) q = none
        ∨ (fun _ : String => (none : Option (List (Option Repo)))) q = some [])
      ∨ (∀ o n, contribsOrEmpty ((fun _ _ : String => ContribResp.failed) o n) = []))
    ∧ run_repo_contributors_pipeline (fun _ : ℕ => (0 : ℚ)) {} ["language:Python"]
        (fun _ : String => none) (fun _ _ : String => ContribResp.failed)
        (fun _ : List String => .error "hydrate down") 100
        = .ok ([], []) :=
  ⟨Or.inl (fun _ _ => Or.inl rfl),
   pipeline_graceful_empty (fun _ : ℕ => (0 : ℚ)) {} ["language:Python"]
     (fun _ : String => none) (fun _ _ : String => ContribResp.failed)
     (fun _ : List String => .error "hydrate down") 100
     (Or.inl (fun _ _ => Or.inl rfl))⟩

/-! ## C9 — per-unit failure isolation in the contributor fan-out -/

theorem batch_lookup_char (resp : String → String → ContribResp) :
    ∀ (repos : List RepoRef) (acc : List (String × List Contributor)) (k : String),
      lookupAssoc (repos.foldl (batchStep resp) acc) k
        = (match ((validRefs repos).filter (fun p => p.1 ++ "/" ++ p.2 = k)).getLast? with
           | some p => some (contribsOrEmpty (resp p.1 p.2))
           | none => lookupAssoc acc k)
  | [], acc, k => by simp [validRefs]
  | rp :: rest, acc, k => by
    rw [List.foldl_cons]
    obtain ⟨ow, nm⟩ := rp
    cases ow with
    | none =>
      have hstep : batchStep resp acc ⟨none, nm⟩ = acc := rfl
      rw [hstep, batch_lookup_char resp rest acc k]
      have hv : validRefs (⟨none, nm⟩ :: rest) = validRefs rest := by
        simp [validRefs, List.filterMap_cons]
      rw [hv]
    | some o =>
      cases nm with
      | none =>
        have hstep : batchStep resp acc ⟨some o, none⟩ = acc := rfl
        rw [hstep, batch_lookup_char resp rest acc k]
        have hv : validRefs (⟨some o, none⟩ :: rest) = validRefs rest := by
          simp [validRefs, List.filterMap_cons]
        rw [hv]
      | some n =>
        by_cases hg : o ≠ "" ∧ n ≠ ""
        · have hstep : batchStep resp acc ⟨some o, some n⟩
              = updAssoc acc (o ++ "/" ++ n) (contribsOrEmpty (resp o n)) := by
            simp only [batchStep]
            rw [if_pos hg]
          rw [hstep, batch_lookup_char resp rest _ k]
          have hv : validRefs (⟨some o, some n⟩ :: rest) = (o, n) :: validRefs rest := by
            simp [validRefs, List.filterMap_cons, hg.1, hg.2]
          rw [hv]
          by_cases hk : o ++ "/" ++ n = k
          · rw [List.filter_cons_of_pos (by simpa using hk), getLast?_cons_or]
            cases hlast : ((validRefs rest).filter
                (fun p => p.1 ++ "/" ++ p.2 = k)).getLast? with
            | some p => rfl
            | none =>
              show lookupAssoc (updAssoc acc (o ++ "/" ++ n) (contribsOrEmpty (resp o n))) k
                = some (contribsOrEmpty (resp o n))
              rw [lookupAssoc_updAssoc, if_pos hk]
          · rw [List.filter_cons_of_neg (by simpa using hk)]
            cases hlast : ((validRefs rest).filter
                (fun p => p.1 ++ "/" ++ p.2 = k)).getLast? with
            | some p => rfl
            | none =>
              show lookupAssoc (updAssoc acc (o ++ "/" ++ n) (contribsOrEmpty (resp o n))) k
                = lookupAssoc acc k
              rw [lookupAssoc_updAssoc, if_neg hk]
        · have hstep : batchStep resp acc ⟨some o, some n⟩ = acc := by
            simp only [batchStep]
            rw [if_neg hg]
          rw [hstep, batch_lookup_char resp rest acc k]
          have hv : validRefs (⟨some o, some n⟩ :: rest) = validRefs rest := by
            simp only [validRefs, List.filterMap_cons]
            rw [if_neg hg]
          rw [hv]

/-- C9: per-unit failures never abort the contributor fan-out. A 404
response yields `Except.ok []` from `get_contributors` (an empty list, not
an error) while a request failure raises; in `get_contributors_batch` the
raised exception is converted to `[]` for that repository, and the batch
entry stored under each `"owner/name"` key is a function of that
repository's own response alone — other repositories' entries are
unaffected. -/
theorem contributors_per_unit_isolation (resp : String → String → ContribResp)
    (repos : List RepoRef) (k : String) :
    get_contributors ContribResp.notFound = Except.ok []
    ∧ get_contributors ContribResp.failed = Except.error ()
    ∧ contribsOrEmpty ContribResp.failed = []
    ∧ lookupAssoc (get_contributors_batch resp repos) k
        = (((validRefs repos).filter (fun p => p.1 ++ "/" ++ p.2 = k)).getLast?).map
            (fun p => contribsOrEmpty (resp p.1 p.2)) := by
  refine ⟨rfl, rfl, rfl, ?_⟩
  unfold get_contributors_batch
  rw [batch_lookup_char resp repos [] k]
  cases ((validRefs repos).filter (fun p => p.1 ++ "/" ++ p.2 = k)).getLast? with
  | some p => rfl
  | none => rfl

/-! ## C8 — SpecExtractor failure handling -/

/-- C8 counterexample: on an outright provider failure the source skips the
rewrite-then-reextract cycle and returns the local extractor's spec
wholesale (the outer `except` at query_generator.py line 116), whereas the
claimed chain would run the rewrite cycle first. With a provider that is
down for the original text but whose rewrite-and-reextract would yield
`languages = ["Python"]`, the claimed chain extracts `["Python"]` while the
code returns the mock extraction of `"zzz"`, which has no languages. -/
theorem spec_extractor_failure_path_counterexample :
    (extract_spec_as_claimed downThenGoodProvider "zzz").languages = ["Python"]
    ∧ (generate_jd_spec downThenGoodProvider "zzz").languages = []
    ∧ extract_spec_as_claimed downThenGoodProvider "zzz"
        ≠ generate_jd_spec downThenGoodProvider "zzz" := by
  refine ⟨rfl, by decide, ?_⟩
  intro h
  have h1 : (extract_spec_as_claimed downThenGoodProvider "zzz").languages = ["Python"] := rfl
  have h2 : (generate_jd_spec downThenGoodProvider "zzz").languages = [] := by decide
  rw [h, h2] at h1
  cases h1

/-- C8 amended: `generate_jd_spec` always returns a spec (it is total: every
provider exception is caught). On an extraction that succeeds with both
`languages` and `core_keywords` empty it runs one rewrite-then-reextract
cycle and, if still empty, merges the local extractor's non-empty fields
without overwriting any populated field; on an outright provider failure it
skips the rewrite cycle and returns the spec built from the local
extractor's output directly. -/
theorem generate_jd_spec_fallback_chain (llm : LLMProviderM) (jd : String) :
    (∀ e, llm.genSpec jd = .error e →
        generate_jd_spec llm jd = mock_generate_jd_spec jd)
    ∧ (∀ d0, llm.genSpec jd = .ok d0 → d0.languages = [] → d0.core_keywords = [] →
        generate_jd_spec llm jd =
          (if (rewriteReextract llm jd d0).languages = []
              ∧ (rewriteReextract llm jd d0).core_keywords = [] then
            mergeFallback (rewriteReextract llm jd d0) (mock_generate_jd_spec jd)
          else rewriteReextract llm jd d0))
    ∧ (∀ d0, llm.genSpec jd = .ok d0 →
        (d0.languages ≠ [] ∨ d0.core_keywords ≠ []) →
        generate_jd_spec llm jd = d0)
    ∧ (∀ d fb : GitScoutJDSpec,
        (d.languages ≠ [] → (mergeFallback d fb).languages = d.languages)
        ∧ (d.core_domains ≠ [] → (mergeFallback d fb).core_domains = d.core_domains)
        ∧ (d.core_keywords ≠ [] → (mergeFallback d fb).core_keywords = d.core_keywords)
        ∧ (d.nice_keywords ≠ [] → (mergeFallback d fb).nice_keywords = d.nice_keywords)
        ∧ (d.languages = [] → fb.languages ≠ [] →
            (mergeFallback d fb).languages = fb.languages)
        ∧ (d.core_domains = [] → fb.core_domains ≠ [] →
            (mergeFallback d fb).core_domains = fb.core_domains)
        ∧ (d.core_keywords = [] → fb.core_keywords ≠ [] →
            (mergeFallback d fb).core_keywords = fb.core_keywords)
        ∧ (d.nice_keywords = [] → fb.nice_keywords ≠ [] →
            (mergeFallback d fb).nice_keywords = fb.nice_keywords)) := by
  refine ⟨?_, ?_, ?_, ?_⟩
  · intro e he
    unfold generate_jd_spec
    rw [he]
  · intro d0 hok h1 h2
    unfold generate_jd_spec
    rw [hok]
    show (if d0.languages = [] ∧ d0.core_keywords = [] then _ else d0) = _
    rw [if_pos ⟨h1, h2⟩]
  · intro d0 hok hne
    unfold generate_jd_spec
    rw [hok]
    show (if d0.languages = [] ∧ d0.core_keywords = [] then _ else d0) = d0
    rw [if_neg (fun hc => by rcases hne with hne | hne <;> exact hne (by simp [hc.1, hc.2]))]
  · intro d fb
    refine ⟨?_, ?_, ?_, ?_, ?_, ?_, ?_, ?_⟩ <;> intro h
    · simp [mergeFallback, h]
    · simp [mergeFallback, h]
    · simp [mergeFallback, h]
    · simp [mergeFallback, h]
    · intro h2
      simp [mergeFallback, h, h2]
    · intro h2
      simp [mergeFallback, h, h2]
    · intro h2
      simp [mergeFallback, h, h2]
    · intro h2
      simp [mergeFallback, h, h2]

/-- C8 witness: the provider-failure branch at a concrete provider and job
text. -/
theorem generate_jd_spec_fallback_chain_witness :
    downThenGoodProvider.genSpec "zzz" = Except.error "provider down"
    ∧ generate_jd_spec downThenGoodProvider "zzz" = mock_generate_jd_spec "zzz" :=
  ⟨rfl,
   (generate_jd_spec_fallback_chain downThenGoodProvider "zzz").1 "provider down" rfl⟩

end GitScout
